import Mathlib

/-!
Shallow embedding of the reqtsv record store (src/src/lib.rs,
src/src/component/mod.rs, src/src/requirement/mod.rs, src/src/main.rs).

Strings are Lean `String`s; byte-level Rust string operations are modelled
char-by-char on `String.data`.  Machine integers (`u64` ids, `usize`
versions) are modelled as `Nat`: the store never performs arithmetic on
ids (the allocator takes a maximum, never adds one), and the only
arithmetic, `version + 1` on accepted edits, cannot reach `2^64` in any
behaviour the claims quantify over.  Fallible operations return `Except`;
an `Except.error` result corresponds to a Rust early `return Err(..)`
taken before any mutation of the context, so the pre-state is unchanged
exactly when the embedding yields `.error`.
-/

namespace Reqtsv

/-! ### Character-list string helpers -/

/-- Does the first list start with the second (pattern)? -/
def startsWithL : List Char → List Char → Bool
  | _, [] => true
  | [], _ :: _ => false
  | a :: as, b :: bs => a == b && startsWithL as bs

/-- Does the list contain the pattern as a contiguous subsequence?
Mirrors Rust `str::contains(pattern)`. -/
def containsSeqL : List Char → List Char → Bool
  | [], pat => pat.isEmpty
  | c :: cs, pat => startsWithL (c :: cs) pat || containsSeqL cs pat

/-- Fuel-indexed worker for `replaceL`; the fuel bounds the number of
steps, each of which consumes at least one character. -/
def replaceFuel (pat rep : List Char) : Nat → List Char → List Char
  | 0, s => s
  | _ + 1, [] => []
  | fuel + 1, c :: cs =>
    if !pat.isEmpty && startsWithL (c :: cs) pat then
      rep ++ replaceFuel pat rep fuel ((c :: cs).drop pat.length)
    else
      c :: replaceFuel pat rep fuel cs

/-- Replace every non-overlapping occurrence of `pat` by `rep`, left to
right.  Mirrors Rust `str::replace`. -/
def replaceL (pat rep s : List Char) : List Char :=
  replaceFuel pat rep s.length s

/-- Mirrors `contains_any` (src/src/lib.rs): is any character of
`searchStr` among `toFind`? -/
def contains_any (toFind : List Char) (searchStr : String) : Bool :=
  searchStr.data.any (fun ch => toFind.contains ch)

/-- Does the string contain a raw tab character?  Mirrors Rust
`str::contains('\t')`. -/
def containsTab (s : String) : Bool :=
  s.data.contains '\t'

/-- Mirrors `escape_normalize_nl` (src/src/lib.rs): first every CRLF,
then every remaining LF, is replaced by the literal two characters
backslash and `n`.  The boolean records whether the Rust function
returned `Cow::Owned` (i.e. whether any replacement fired), which one
caller branches on. -/
def escape_normalize_nl (input : String) : Bool × String :=
  let s := input.data
  let step1 :=
    if containsSeqL s ['\r', '\n'] then (true, replaceL ['\r', '\n'] ['\\', 'n'] s)
    else (false, s)
  let step2 :=
    if step1.2.contains '\n' then (true, replaceL ['\n'] ['\\', 'n'] step1.2)
    else (step1.1, step1.2)
  (step2.1, String.mk step2.2)

/-! ### Record data model -/

/-- Mirrors `RecordStatus` (src/src/lib.rs). -/
inductive RecordStatus where
  | Draft
  | Accepted
  | Deleted
deriving DecidableEq, Repr

/-- Mirrors `RequirementFunctional` (src/src/requirement/mod.rs). -/
inductive RequirementFunctional where
  | Functional
  | NonFunctional
deriving DecidableEq, Repr

/-- Mirrors `RequirementPriority` (src/src/requirement/mod.rs). -/
inductive RequirementPriority where
  | Mandated
  | High
  | Med
  | Low
deriving DecidableEq, Repr

/-- Mirrors `Component` (src/src/component/mod.rs).  `creation_date`
holds the serde-serialized form of the `DateTime<Local>` value; the
store never inspects it. -/
structure Component where
  id : Nat
  name : String
  description : String
  creation_date : String
  status : RecordStatus
  author : String
deriving DecidableEq, Repr

/-- Mirrors `ComponentTomlDraft` (src/src/component/mod.rs). -/
structure ComponentTomlDraft where
  name : String
  description : String
  author : String
deriving DecidableEq, Repr

/-- Mirrors `ComponentEdit` (src/src/component/mod.rs). -/
structure ComponentEdit where
  name : String
  description : String
  author : String
deriving DecidableEq, Repr

/-- Mirrors `Requirement` (src/src/requirement/mod.rs); field order is
the declaration (= serde serialization) order. -/
structure Requirement where
  id : Nat
  component_id : Nat
  title : String
  functional : RequirementFunctional
  creation_date : String
  requirement_text : String
  version : Nat
  author : String
  priority : RequirementPriority
  status : RecordStatus
  risks : String
deriving DecidableEq, Repr

/-- Mirrors `RequirementEdit` (src/src/requirement/mod.rs). -/
structure RequirementEdit where
  functional : RequirementFunctional
  title : String
  requirement_text : String
  author : String
  priority : RequirementPriority
  status : RecordStatus
  risks : String
deriving DecidableEq, Repr

/-- Which staged-document field a sanitize error blames. -/
inductive SanField where
  | name
  | description
  | author
  | title
  | requirementText
  | risks
deriving DecidableEq, Repr

/-- Store errors, each constructor standing for one distinguishable Rust
error return: `sanitize f` for the per-field sanitize failures,
`conflict id` for the insert-path identity conflicts that cite the
conflicting record's id, `conflictName n` for
`Component::check_for_conflict` (which cites the name), `notFound` /
`alreadyDeleted` for bad-id / bad-transition errors, `noComponents` for
the empty-component-list guard in the requirement paths. -/
inductive StoreErr where
  | sanitize (f : SanField)
  | conflict (id : Nat)
  | conflictName (n : String)
  | notFound (id : Nat)
  | alreadyDeleted
  | noComponents
deriving DecidableEq, Repr

/-! ### Staged-document sanitizers -/

/-- Mirrors `sanitize_component_draft` (src/src/component/mod.rs):
error on NL/CR/tab in `name`, on tab in `description`, on tab in
`author`; then normalize line breaks in `description`.  The `author`
field is checked only for tabs. -/
def sanitize_component_draft (draft : ComponentTomlDraft) :
    Except StoreErr ComponentTomlDraft :=
  if contains_any ['\n', '\r', '\t'] draft.name then
    .error (.sanitize .name)
  else if containsTab draft.description then
    .error (.sanitize .description)
  else if containsTab draft.author then
    .error (.sanitize .author)
  else
    let esc := escape_normalize_nl draft.description
    .ok { draft with description := if esc.1 then esc.2 else draft.description }

/-- Mirrors `sanitize_component_edit` (src/src/component/mod.rs):
like the draft sanitizer but `author` is also checked for NL/CR. -/
def sanitize_component_edit (draft : ComponentEdit) :
    Except StoreErr ComponentEdit :=
  if contains_any ['\n', '\r', '\t'] draft.name then
    .error (.sanitize .name)
  else if containsTab draft.description then
    .error (.sanitize .description)
  else if contains_any ['\n', '\r', '\t'] draft.author then
    .error (.sanitize .author)
  else
    let esc := escape_normalize_nl draft.description
    .ok { draft with description := if esc.1 then esc.2 else draft.description }

/-- Mirrors `RequirementEdit::sanitize` (src/src/requirement/mod.rs),
including its misdirected assignment: when normalizing
`requirement_text` produces an owned (changed) string the source stores
the result into `risks`, leaving `requirement_text` itself untouched,
and then normalizes (the possibly overwritten) `risks` in place. -/
def RequirementEdit.sanitize (e : RequirementEdit) :
    Except StoreErr RequirementEdit :=
  if containsTab e.risks then
    .error (.sanitize .risks)
  else if containsTab e.requirement_text then
    .error (.sanitize .requirementText)
  else if contains_any ['\n', '\t', '\r'] e.author then
    .error (.sanitize .author)
  else if contains_any ['\n', '\t', '\r'] e.title then
    .error (.sanitize .title)
  else
    let esc1 := escape_normalize_nl e.requirement_text
    let e1 := if esc1.1 then { e with risks := esc1.2 } else e
    let esc2 := escape_normalize_nl e1.risks
    let e2 := if esc2.1 then { e1 with risks := esc2.2 } else e1
    .ok e2

/-! ### Table encoding (the csv writer of `AppCtx::wrtie_table`) -/

/-- A csv cell as the csv crate writes it with `QuoteStyle::Necessary`,
delimiter tab and record terminator LF: quoted (with doubled inner
quotes) only when the cell contains a quote, the delimiter or the
terminator. -/
def csvCell (s : String) : String :=
  if s.data.contains '"' || s.data.contains '\t' || s.data.contains '\n' then
    "\"" ++ String.mk (replaceL ['"'] ['"', '"'] s.data) ++ "\""
  else s

/-- Serialized form of a `RecordStatus` cell (serde unit-variant name). -/
def statusCell : RecordStatus → String
  | .Draft => "Draft"
  | .Accepted => "Accepted"
  | .Deleted => "Deleted"

/-- Serialized form of a `RequirementFunctional` cell. -/
def functionalCell : RequirementFunctional → String
  | .Functional => "Functional"
  | .NonFunctional => "NonFunctional"

/-- Serialized form of a `RequirementPriority` cell. -/
def priorityCell : RequirementPriority → String
  | .Mandated => "Mandated"
  | .High => "High"
  | .Med => "Med"
  | .Low => "Low"

/-- The component field names in declaration order; the csv writer emits
them as the header row. -/
def componentFieldNames : List String :=
  ["id", "name", "description", "creation_date", "status", "author"]

/-- The requirement field names in declaration order; the csv writer
emits them as the header row. -/
def requirementFieldNames : List String :=
  ["id", "component_id", "title", "functional", "creation_date",
   "requirement_text", "version", "author", "priority", "status", "risks"]

/-- One component row as the csv writer serializes it. -/
def componentRow (c : Component) : String :=
  String.intercalate "\t"
    [csvCell (toString c.id), csvCell c.name, csvCell c.description,
     csvCell c.creation_date, csvCell (statusCell c.status), csvCell c.author]
    ++ "\n"

/-- One requirement row as the csv writer serializes it. -/
def requirementRow (r : Requirement) : String :=
  String.intercalate "\t"
    [csvCell (toString r.id), csvCell (toString r.component_id),
     csvCell r.title, csvCell (functionalCell r.functional),
     csvCell r.creation_date, csvCell r.requirement_text,
     csvCell (toString r.version), csvCell r.author,
     csvCell (priorityCell r.priority), csvCell (statusCell r.status),
     csvCell r.risks]
    ++ "\n"

/-- Full component table bytes: header (struct field names) then one row
per record in list order, as `AppCtx::wrtie_table` produces. -/
def encodeComponentTable (rs : List Component) : String :=
  (String.intercalate "\t" componentFieldNames ++ "\n")
    ++ String.join (rs.map componentRow)

/-- Full requirement table bytes, same shape. -/
def encodeRequirementTable (rs : List Requirement) : String :=
  (String.intercalate "\t" requirementFieldNames ++ "\n")
    ++ String.join (rs.map requirementRow)

/-- Mirrors `COMPONENT_HEADER` (src/src/lib.rs line 24). -/
def COMPONENT_HEADER : String :=
  "id\tname\tdescription\tcreation_date\tstatus\tauthor\n"

/-- Mirrors `REQUIREMENT_HEADER` (src/src/lib.rs line 25). -/
def REQUIREMENT_HEADER : String :=
  "id\tcomponent_id\tfunctional\tcreation_date\trequirement\tversion\tauthor\tpriority\tstatus\tstatus_justification\trisks\n"

/-- The bytes `init_project` (src/src/lib.rs) writes into the fresh
requirement table file: exactly `REQUIREMENT_HEADER`. -/
def initRequirementContent : String := REQUIREMENT_HEADER

/-- The bytes `init_project` writes into the fresh component table
file: exactly `COMPONENT_HEADER`. -/
def initComponentContent : String := COMPONENT_HEADER

/-! ### Application context

`AppCtx` (src/src/lib.rs) holds both in-memory tables and, here, the
bytes of the four on-disk files the store touches: the live table files
(`component.tsv` / `requirement.tsv`, opened at startup and replaced
only by the shutdown rename sequence in `main`) and their `.new`
siblings (`component.new.tsv` / `requirement.new.tsv`, rewritten by
`AppCtx::wrtie_table` on every accepted mutation). -/
structure AppCtx where
  components : List Component
  requirements : List Requirement
  fsComponentTbl : String
  fsRequirementTbl : String
  fsComponentNew : Option String
  fsRequirementNew : Option String
  updatedComponent : Bool
  updatedRequirement : Bool
deriving DecidableEq, Repr

/-- Mirrors `AppCtx::write_components`: serialize the whole component
table into the `.new` sibling (create-or-truncate, write, flush, sync)
and mark the component table updated.  The live table file is not
touched. -/
def AppCtx.write_components (ctx : AppCtx) : AppCtx :=
  { ctx with
    fsComponentNew := some (encodeComponentTable ctx.components)
    updatedComponent := true }

/-- Mirrors `AppCtx::write_requirements`, same shape. -/
def AppCtx.write_requirements (ctx : AppCtx) : AppCtx :=
  { ctx with
    fsRequirementNew := some (encodeRequirementTable ctx.requirements)
    updatedRequirement := true }

/-! ### Generic record-store operations

The Rust code abstracts the two record kinds through the `RecordType`
trait; `RecordOps` packages the same capability set. -/

/-- The `RecordType` trait methods the store operations use
(src/src/lib.rs), as explicit functions. -/
structure RecordOps (R E : Type) where
  getId : R → Nat
  getStatus : R → RecordStatus
  setAccepted : R → R
  setDeleted : R → R
  checkForConflict : R → E → Except StoreErr Unit
  updateFromEdit : R → E → R
  sanitizeE : E → Except StoreErr E

/-- The `RecordType` implementation for `Component`
(src/src/component/mod.rs). -/
def componentOps : RecordOps Component ComponentEdit where
  getId := Component.id
  getStatus := Component.status
  setAccepted := fun r => { r with status := .Accepted }
  setDeleted := fun r => { r with status := .Deleted }
  checkForConflict := fun self rhs =>
    if self.name = rhs.name then .error (.conflictName self.name) else .ok ()
  updateFromEdit := fun r e =>
    { r with name := e.name, description := e.description, author := e.author }
  sanitizeE := sanitize_component_edit

/-- The `RecordType` implementation for `Requirement`
(src/src/requirement/mod.rs).  `check_for_conflict` tests the
requirement text first, then the title, citing the existing record's
id; `update_from_edit` increments `version`. -/
def requirementOps : RecordOps Requirement RequirementEdit where
  getId := Requirement.id
  getStatus := Requirement.status
  setAccepted := fun r => { r with status := .Accepted }
  setDeleted := fun r => { r with status := .Deleted }
  checkForConflict := fun self rhs =>
    if self.requirement_text = rhs.requirement_text then .error (.conflict self.id)
    else if self.title = rhs.title then .error (.conflict self.id)
    else .ok ()
  updateFromEdit := fun r e =>
    { r with
      functional := e.functional, title := e.title,
      requirement_text := e.requirement_text, version := r.version + 1,
      author := e.author, priority := e.priority, risks := e.risks }
  sanitizeE := RequirementEdit.sanitize

/-- Index of the first element satisfying `p`. -/
def findIdxBy (p : R → Bool) : List R → Option Nat
  | [] => none
  | r :: rs => if p r then some 0 else (findIdxBy p rs).map (· + 1)

/-- The index `mut_record_by_id` (src/src/lib.rs) resolves `id` to:
position `id` itself when the table has an element there (the fast
path, taken without checking that record's own id), otherwise the first
position whose record has the requested id. -/
def lookupIdx (ops : RecordOps R E) (rs : List R) (id : Nat) : Option Nat :=
  if id < rs.length then some id
  else findIdxBy (fun r => decide (ops.getId r = id)) rs

/-- Mirrors `mut_record_by_id` (src/src/lib.rs) as a read: the element
at position `id` when it exists, else the first element whose id
matches. -/
def mut_record_by_id (ops : RecordOps R E) (rs : List R) (id : Nat) : Option R :=
  match rs[id]? with
  | some r => some r
  | none => rs.find? (fun r => decide (ops.getId r = id))

/-- Replace the element at `i` (if any) by `f` of it. -/
def modifyAt (rs : List R) (i : Nat) (f : R → R) : List R :=
  match rs[i]? with
  | some r => rs.set i (f r)
  | none => rs

/-- Mirrors the table-level part of `update_record` (src/src/lib.rs):
sanitize the edit document, run the identity-conflict check against
every record other than the one with the requested id, resolve the
record (index fast path, then id scan), apply the edit and force status
Accepted.  Returns the new table; the caller persists it. -/
def updateRecord (ops : RecordOps R E) (records : List R) (id : Nat)
    (rawEdit : E) : Except StoreErr (List R) :=
  match ops.sanitizeE rawEdit with
  | .error e => .error e
  | .ok edit =>
    match records.findSome? (fun c =>
        if ops.getId c = id then none
        else
          match ops.checkForConflict c edit with
          | .ok _ => none
          | .error e => some e) with
    | some e => .error e
    | none =>
      match lookupIdx ops records id with
      | none => .error (.notFound id)
      | some i =>
        .ok (modifyAt records i (fun r => ops.setAccepted (ops.updateFromEdit r edit)))

/-- Mirrors the table-level part of `delete_record` (src/src/lib.rs):
resolve the record, fail if it is already Deleted, otherwise (when the
operator confirms) mark it Deleted.  `.ok none` is the operator-cancel
path, which writes nothing. -/
def deleteRecord (ops : RecordOps R E) (records : List R) (id : Nat)
    (confirm : Bool) : Except StoreErr (Option (List R)) :=
  match lookupIdx ops records id with
  | none => .error (.notFound id)
  | some i =>
    match records[i]? with
    | none => .error (.notFound id)
    | some r =>
      if ops.getStatus r = .Deleted then .error .alreadyDeleted
      else if confirm then .ok (some (modifyAt records i ops.setDeleted))
      else .ok none

/-- `update_record::<Component>` at context level: table update then
`write_components`. -/
def updateComponent (ctx : AppCtx) (id : Nat) (rawEdit : ComponentEdit) :
    Except StoreErr AppCtx :=
  (updateRecord componentOps ctx.components id rawEdit).map
    (fun rs => AppCtx.write_components { ctx with components := rs })

/-- `update_record::<Requirement>` at context level. -/
def updateRequirement (ctx : AppCtx) (id : Nat) (rawEdit : RequirementEdit) :
    Except StoreErr AppCtx :=
  (updateRecord requirementOps ctx.requirements id rawEdit).map
    (fun rs => AppCtx.write_requirements { ctx with requirements := rs })

/-- `delete_record::<Component>` at context level: persists only when a
deletion actually happened. -/
def deleteComponent (ctx : AppCtx) (id : Nat) (confirm : Bool) :
    Except StoreErr AppCtx :=
  (deleteRecord componentOps ctx.components id confirm).map
    (fun ors =>
      match ors with
      | some rs => AppCtx.write_components { ctx with components := rs }
      | none => ctx)

/-- `delete_record::<Requirement>` at context level. -/
def deleteRequirement (ctx : AppCtx) (id : Nat) (confirm : Bool) :
    Except StoreErr AppCtx :=
  (deleteRecord requirementOps ctx.requirements id confirm).map
    (fun ors =>
      match ors with
      | some rs => AppCtx.write_requirements { ctx with requirements := rs }
      | none => ctx)

/-- The id `insert_component_draft` / `insert_requirement_draft`
assign: `records.iter().max()` (ordering is by id) mapped to its id,
`0` for an empty table.  Note: the maximum itself, not one past it. -/
def maxRecId (getId : R → Nat) (rs : List R) : Nat :=
  (rs.map getId).foldl max 0

/-- Mirrors `insert_component_draft` (src/src/component/mod.rs):
sanitize the chosen draft, reject when any existing record (whatever
its status) has the same name, citing that record's id; otherwise
append a new record with the assigned id, a fresh creation date, status
Accepted, and persist via `write_components`. -/
def insert_component_draft (ctx : AppCtx) (rawDraft : ComponentTomlDraft)
    (now : String) : Except StoreErr AppCtx :=
  match sanitize_component_draft rawDraft with
  | .error e => .error e
  | .ok draft =>
    match ctx.components.find? (fun c => decide (c.name = draft.name)) with
    | some c => .error (.conflict c.id)
    | none =>
      let id := maxRecId Component.id ctx.components
      let name := String.mk (replaceL ['\n'] ['\\', 'n'] draft.name.data)
      AppCtx.write_components
        { ctx with components := ctx.components ++
            [{ id := id, name := name, description := draft.description,
               creation_date := now, status := .Accepted,
               author := draft.author }] } |> .ok

/-- Mirrors `insert_requirement_draft` (src/src/requirement/mod.rs):
the operator first picks a component among the Accepted ones (an error
when none exist; the picked id is the `componentId` argument), the
draft is sanitized, checked for title/text conflicts against every
existing requirement, then appended with the assigned id, version 0 and
status Accepted, and persisted via `write_requirements`. -/
def insert_requirement_draft (ctx : AppCtx) (componentId : Nat)
    (rawDraft : RequirementEdit) (now : String) : Except StoreErr AppCtx :=
  if (ctx.components.filter (fun c => decide (c.status = .Accepted))).isEmpty then
    .error .noComponents
  else
    match RequirementEdit.sanitize rawDraft with
    | .error e => .error e
    | .ok draft =>
      match ctx.requirements.findSome? (fun c =>
          match requirementOps.checkForConflict c draft with
          | .ok _ => none
          | .error e => some e) with
      | some e => .error e
      | none =>
        let id := maxRecId Requirement.id ctx.requirements
        AppCtx.write_requirements
          { ctx with requirements := ctx.requirements ++
              [{ id := id, component_id := componentId, title := draft.title,
                 functional := draft.functional, creation_date := now,
                 requirement_text := draft.requirement_text, version := 0,
                 author := draft.author, priority := draft.priority,
                 status := .Accepted, risks := draft.risks }] } |> .ok

/-! ### The atomic table writer (`atomic_file_update`, src/src/lib.rs)

The relevant slice of the file system: the target path `T`, its
siblings `T.new` and `T.old`, each either absent or holding bytes.
`AtomicFail` injects the environment's possible IO failures; in
addition `create_new` fails deterministically when `T.new` exists and a
rename fails when its source is missing. -/

/-- Contents of `T`, `T.new` and `T.old`. -/
structure FsState where
  tCur : Option String
  tNew : Option String
  tOld : Option String
deriving DecidableEq, Repr

/-- Injected IO failures for one `atomic_file_update` run;
`writeLeft` is whatever incomplete bytes a failed write leaves in
`T.new`. -/
structure AtomicFail where
  createFail : Bool
  writeFail : Bool
  writeLeft : String
  rename1Fail : Bool
  rename2Fail : Bool
  removeFail : Bool
deriving DecidableEq, Repr

/-- Which step of `atomic_file_update` failed. -/
inductive AtomicErr where
  | createNew
  | writeNew
  | renameCurToOld
  | renameNewToCur
  | removeOld
deriving DecidableEq, Repr

/-- Mirrors `atomic_file_update` (src/src/lib.rs): exclusive-create of
`T.new`; write + flush + sync of the full content; rename `T` to
`T.old`; rename `T.new` to `T`; delete `T.old`.  Every failure aborts
at its step; the pair returns the error (if any) and the resulting file
system. -/
def atomic_file_update (f : AtomicFail) (content : String) (fs : FsState) :
    Option AtomicErr × FsState :=
  if fs.tNew.isSome || f.createFail then (some .createNew, fs)
  else
    let fs1 : FsState := { fs with tNew := some "" }
    if f.writeFail then (some .writeNew, { fs1 with tNew := some f.writeLeft })
    else
      let fs2 : FsState := { fs1 with tNew := some content }
      if fs2.tCur.isNone || f.rename1Fail then (some .renameCurToOld, fs2)
      else
        let fs3 : FsState := { fs2 with tCur := none, tOld := fs2.tCur }
        if f.rename2Fail then (some .renameNewToCur, fs3)
        else
          let fs4 : FsState := { fs3 with tCur := fs3.tNew, tNew := none }
          if f.removeFail then (some .removeOld, fs4)
          else (none, { fs4 with tOld := none })

deriving instance DecidableEq for Except

/-! ### Example fixtures -/

/-- An `AppCtx` over freshly initialized (empty) tables. -/
def emptyCtx : AppCtx :=
  { components := [], requirements := [],
    fsComponentTbl := encodeComponentTable [],
    fsRequirementTbl := encodeRequirementTable [],
    fsComponentNew := none, fsRequirementNew := none,
    updatedComponent := false, updatedRequirement := false }

/-- An accepted component with id 0. -/
def exComp0 : Component :=
  { id := 0, name := "alpha", description := "base", creation_date := "d0",
    status := .Accepted, author := "ann" }

/-- An accepted requirement with id 3. -/
def exReq0 : Requirement :=
  { id := 3, component_id := 0, title := "t0", functional := .Functional,
    creation_date := "d0", requirement_text := "x0", version := 0,
    author := "ann", priority := .High, status := .Accepted, risks := "r0" }

/-- A clean component draft whose name differs from `exComp0`. -/
def exDraftB : ComponentTomlDraft :=
  { name := "beta", description := "dd", author := "bob" }

/-- A clean component edit document. -/
def exEditB : ComponentEdit :=
  { name := "beta", description := "dd", author := "bob" }

/-- A clean requirement edit document distinct from `exReq0`. -/
def exReqEdit1 : RequirementEdit :=
  { functional := .Functional, title := "t1", requirement_text := "x1",
    author := "bob", priority := .Low, status := .Draft, risks := "r1" }

/-- Context holding one accepted component and one accepted
requirement, with both live table files in sync with memory. -/
def ctx1 : AppCtx :=
  { emptyCtx with
    components := [exComp0], requirements := [exReq0],
    fsComponentTbl := encodeComponentTable [exComp0],
    fsRequirementTbl := encodeRequirementTable [exReq0] }

/-- `exComp0` soft-deleted. -/
def exComp0Del : Component := { exComp0 with status := .Deleted }

/-- `exReq0` soft-deleted. -/
def exReq0Del : Requirement := { exReq0 with status := .Deleted }

/-- Context whose only component and only requirement are both already
Deleted. -/
def ctxDel : AppCtx :=
  { emptyCtx with components := [exComp0Del], requirements := [exReq0Del] }

/-- A lone component whose id (5) differs from its position (0). -/
def compId5 : Component :=
  { id := 5, name := "solo", description := "d", creation_date := "d0",
    status := .Accepted, author := "ann" }

/-- A staged requirement document whose multi-line `requirement_text`
holds a raw line break and whose `risks` is the single line `r`. -/
def c8doc : RequirementEdit :=
  { functional := .Functional, title := "t", requirement_text := "a\nb",
    author := "u", priority := .Low, status := .Draft, risks := "r" }

/-- Component draft with a tab in the name. -/
def cdTabName : ComponentTomlDraft := { name := "a\tb", description := "d", author := "u" }

/-- Component draft with a tab in the description. -/
def cdTabDesc : ComponentTomlDraft := { name := "n", description := "d\te", author := "u" }

/-- Component draft with a tab in the author. -/
def cdTabAuth : ComponentTomlDraft := { name := "n", description := "d", author := "u\tv" }

/-- Component edit with a raw line break in the name. -/
def ceNlName : ComponentEdit := { name := "a\nb", description := "d", author := "u" }

/-- Component edit with a tab in the description. -/
def ceTabDesc : ComponentEdit := { name := "n", description := "d\te", author := "u" }

/-- Component edit with a raw line break in the author. -/
def ceNlAuth : ComponentEdit := { name := "n", description := "d", author := "u\nv" }

/-- Requirement document with a tab in the risks field. -/
def reTabRisks : RequirementEdit := { c8doc with requirement_text := "x", risks := "r\ts" }

/-- Requirement document with a tab in the requirement text. -/
def reTabText : RequirementEdit := { c8doc with requirement_text := "x\ty" }

/-- Requirement document with a raw line break in the author. -/
def reNlAuth : RequirementEdit := { c8doc with requirement_text := "x", author := "u\nv" }

/-- Requirement document with a raw line break in the title. -/
def reNlTitle : RequirementEdit := { c8doc with requirement_text := "x", title := "t\nu" }

/-- Context after the witness component insert on `ctx1`. -/
def wInsC : AppCtx :=
  (insert_component_draft ctx1 exDraftB "d1").toOption.getD emptyCtx

/-- Context after the witness requirement insert on `ctx1`. -/
def wInsR : AppCtx :=
  (insert_requirement_draft ctx1 0 exReqEdit1 "d1").toOption.getD emptyCtx

/-- A soft-deleted component whose name the C5 witness draft reuses. -/
def compDelG : Component :=
  { id := 4, name := "gamma", description := "d", creation_date := "d0",
    status := .Deleted, author := "ann" }

/-- A soft-deleted requirement whose title the C5 witness edit reuses. -/
def reqDel9 : Requirement :=
  { id := 9, component_id := 0, title := "t9", functional := .Functional,
    creation_date := "d0", requirement_text := "x9", version := 2,
    author := "ann", priority := .Med, status := .Deleted, risks := "r9" }

/-- Context whose tables contain the two deleted records (plus one
accepted component so the requirement path can pick one). -/
def ctxC5 : AppCtx :=
  { emptyCtx with
    components := [compDelG, exComp0], requirements := [reqDel9] }

/-- Component draft reusing the deleted record's name. -/
def draftG : ComponentTomlDraft :=
  { name := "gamma", description := "dd", author := "bob" }

/-- Requirement draft reusing the deleted record's title. -/
def reqEditT9 : RequirementEdit :=
  { functional := .Functional, title := "t9", requirement_text := "zz",
    author := "bob", priority := .Low, status := .Draft, risks := "r" }

/-- Context after the witness component update on `ctx1`. -/
def wUpdC : AppCtx := (updateComponent ctx1 0 exEditB).toOption.getD emptyCtx

/-- Context after the witness component delete on `ctx1`. -/
def wDelC : AppCtx := (deleteComponent ctx1 0 true).toOption.getD emptyCtx

/-- Context after the witness requirement update on `ctx1`. -/
def wUpdR : AppCtx := (updateRequirement ctx1 3 exReqEdit1).toOption.getD emptyCtx

/-- Context after the witness requirement delete on `ctx1`. -/
def wDelR : AppCtx := (deleteRequirement ctx1 3 true).toOption.getD emptyCtx

/-- `exComp0` with id 1, so the table `[comp1]` has max id = length. -/
def comp1 : Component := { exComp0 with id := 1 }

/-- `exReq0` with id 1, so the table `[reqId1]` has max id = length. -/
def reqId1 : Requirement := { exReq0 with id := 1 }

/-- Context whose tables each hold one record of id 1: for both kinds
the assigned insert id (1) equals the table length (1). -/
def ctxLen1 : AppCtx :=
  { emptyCtx with components := [comp1], requirements := [reqId1] }

/-- Context after the C3 witness component insert on `ctxLen1`. -/
def wInsC3 : AppCtx :=
  (insert_component_draft ctxLen1 exDraftB "d1").toOption.getD emptyCtx

/-- Context after the C3 witness requirement insert on `ctxLen1`. -/
def wInsR3 : AppCtx :=
  (insert_requirement_draft ctxLen1 0 exReqEdit1 "d2").toOption.getD emptyCtx

/-- Context after the witness update that resurrects the deleted
component of `ctxDel`. -/
def wUpdDel : AppCtx :=
  (updateComponent ctxDel 0 exEditB).toOption.getD emptyCtx

/-- Context after the witness update that resurrects the deleted
requirement of `ctxDel`. -/
def wUpdDelR : AppCtx :=
  (updateRequirement ctxDel 3 exReqEdit1).toOption.getD emptyCtx


/-! ### Helper lemmas -/

/-- Folding `max` over a list of naturals returns the seed or a member. -/
lemma foldl_max_choice (l : List Nat) (a : Nat) :
    List.foldl max a l = a ∨ List.foldl max a l ∈ l := by
  induction l generalizing a with
  | nil => left; rfl
  | cons x xs ih =>
    rcases ih (max a x) with h | h
    · rw [List.foldl_cons] at *
      rcases max_choice a x with h2 | h2
      · left; rw [h, h2]
      · right; rw [h, h2]; exact List.mem_cons_self x xs
    · right; exact List.mem_cons_of_mem x (by rw [List.foldl_cons]; exact h)

/-- The seed is a lower bound of a `max` fold. -/
lemma le_foldl_max (l : List Nat) (a : Nat) : a ≤ List.foldl max a l := by
  induction l generalizing a with
  | nil => simp
  | cons x xs ih =>
    exact le_trans (le_max_left a x) (by rw [List.foldl_cons]; exact ih (max a x))

/-- Every member is a lower bound of a `max` fold. -/
lemma mem_le_foldl_max (l : List Nat) :
    ∀ (a x : Nat), x ∈ l → x ≤ List.foldl max a l := by
  induction l with
  | nil => intro a x hx; cases hx
  | cons y ys ih =>
    intro a x hx
    rw [List.foldl_cons]
    rcases List.mem_cons.mp hx with rfl | h
    · exact le_trans (le_max_right a x) (le_foldl_max ys (max a x))
    · exact ih (max a y) x h

/-- The assigned id is the id of some existing record whenever the
table is non-empty. -/
lemma maxRecId_mem (getId : R → Nat) (rs : List R) :
    rs = [] ∨ maxRecId getId rs ∈ rs.map getId := by
  cases rs with
  | nil => left; rfl
  | cons r rs' =>
    right
    rcases foldl_max_choice ((r :: rs').map getId) 0 with h | h
    · have hle : getId r ≤ List.foldl max 0 ((r :: rs').map getId) :=
        mem_le_foldl_max _ 0 _ (by simp)
      rw [h] at hle
      have hz : getId r = 0 := Nat.le_zero.mp hle
      rw [maxRecId, h, ← hz]
      simp
    · rw [maxRecId]; exact h

/-- Reading back the modified position applies the function to the old
element. -/
lemma modifyAt_get? (rs : List R) (i : Nat) (f : R → R) :
    (modifyAt rs i f)[i]? = rs[i]?.map f := by
  induction rs generalizing i with
  | nil => simp [modifyAt]
  | cons x xs ih =>
    cases i with
    | zero => simp [modifyAt]
    | succ n =>
      have h2 := ih n
      cases h : xs[n]? with
      | none => simp [modifyAt, h]
      | some r =>
        simp only [modifyAt, List.getElem?_cons_succ, List.set_cons_succ, h] at h2 ⊢
        simpa using h2

/-- A `findSome?` whose function fires exactly on `p` with value `g`
is the `find?` of `p` mapped through `g`. -/
lemma findSome?_of_find? (p : R → Bool) (g : R → StoreErr) (f : R → Option StoreErr)
    (hf : ∀ c, f c = if p c then some (g c) else none) (rs : List R) :
    rs.findSome? f = (rs.find? p).map g := by
  induction rs with
  | nil => simp
  | cons c cs ih =>
    rw [List.findSome?_cons, List.find?_cons, hf c]
    cases hp : p c with
    | true => simp
    | false => simp [ih]

/-- The requirement-insert conflict scan is the first record whose text
or title matches, its id cited. -/
lemma req_conflict_findSome (rs : List Requirement) (d : RequirementEdit) :
    rs.findSome? (fun c =>
        match requirementOps.checkForConflict c d with
        | .ok _ => none
        | .error e => some e)
      = (rs.find? (fun c =>
          decide (c.requirement_text = d.requirement_text)
          || decide (c.title = d.title))).map
        (fun c => StoreErr.conflict c.id) := by
  refine findSome?_of_find? _ _ _ (fun c => ?_) rs
  by_cases h1 : c.requirement_text = d.requirement_text
  · simp [requirementOps, h1]
  · by_cases h2 : c.title = d.title
    · simp [requirementOps, h1, h2]
    · simp [requirementOps, h1, h2]

/-- A successful component insert wrote the new table to the `.new`
sibling, marked the table updated, and left the live table file
untouched. -/
lemma insert_component_persists (c c2 : AppCtx) (d : ComponentTomlDraft)
    (now : String) (h : insert_component_draft c d now = .ok c2) :
    c2.fsComponentNew = some (encodeComponentTable c2.components)
    ∧ c2.updatedComponent = true ∧ c2.fsComponentTbl = c.fsComponentTbl := by
  unfold insert_component_draft at h
  split at h
  · exact absurd h (by simp)
  · split at h
    · exact absurd h (by simp)
    · injection h with h
      subst h
      simp [AppCtx.write_components]

/-- A successful component update persists the same way. -/
lemma update_component_persists (c c2 : AppCtx) (id : Nat) (e : ComponentEdit)
    (h : updateComponent c id e = .ok c2) :
    c2.fsComponentNew = some (encodeComponentTable c2.components)
    ∧ c2.updatedComponent = true ∧ c2.fsComponentTbl = c.fsComponentTbl := by
  unfold updateComponent updateRecord at h
  split at h
  · exact absurd h (by simp [Except.map])
  · split at h
    · exact absurd h (by simp [Except.map])
    · split at h
      · exact absurd h (by simp [Except.map])
      · simp only [Except.map] at h
        injection h with h
        subst h
        simp [AppCtx.write_components]

/-- A successful (confirmed) component delete persists the same way. -/
lemma delete_component_persists (c c2 : AppCtx) (id : Nat)
    (h : deleteComponent c id true = .ok c2) :
    c2.fsComponentNew = some (encodeComponentTable c2.components)
    ∧ c2.updatedComponent = true ∧ c2.fsComponentTbl = c.fsComponentTbl := by
  unfold deleteComponent deleteRecord at h
  split at h
  · exact absurd h (by simp [Except.map])
  · split at h
    · exact absurd h (by simp [Except.map])
    · split at h
      · exact absurd h (by simp [Except.map])
      · simp only [if_pos rfl, Except.map] at h
        injection h with h
        subst h
        simp [AppCtx.write_components]

/-- A successful requirement insert persists to the requirement `.new`
sibling. -/
lemma insert_requirement_persists (c c2 : AppCtx) (cid : Nat)
    (e : RequirementEdit) (now : String)
    (h : insert_requirement_draft c cid e now = .ok c2) :
    c2.fsRequirementNew = some (encodeRequirementTable c2.requirements)
    ∧ c2.updatedRequirement = true ∧ c2.fsRequirementTbl = c.fsRequirementTbl := by
  unfold insert_requirement_draft at h
  split at h
  · exact absurd h (by simp)
  · split at h
    · exact absurd h (by simp)
    · split at h
      · exact absurd h (by simp)
      · injection h with h
        subst h
        simp [AppCtx.write_requirements]

/-- A successful requirement update persists the same way. -/
lemma update_requirement_persists (c c2 : AppCtx) (id : Nat)
    (e : RequirementEdit) (h : updateRequirement c id e = .ok c2) :
    c2.fsRequirementNew = some (encodeRequirementTable c2.requirements)
    ∧ c2.updatedRequirement = true ∧ c2.fsRequirementTbl = c.fsRequirementTbl := by
  unfold updateRequirement updateRecord at h
  split at h
  · exact absurd h (by simp [Except.map])
  · split at h
    · exact absurd h (by simp [Except.map])
    · split at h
      · exact absurd h (by simp [Except.map])
      · simp only [Except.map] at h
        injection h with h
        subst h
        simp [AppCtx.write_requirements]

/-- A successful (confirmed) requirement delete persists the same way. -/
lemma delete_requirement_persists (c c2 : AppCtx) (id : Nat)
    (h : deleteRequirement c id true = .ok c2) :
    c2.fsRequirementNew = some (encodeRequirementTable c2.requirements)
    ∧ c2.updatedRequirement = true ∧ c2.fsRequirementTbl = c.fsRequirementTbl := by
  unfold deleteRequirement deleteRecord at h
  split at h
  · exact absurd h (by simp [Except.map])
  · split at h
    · exact absurd h (by simp [Except.map])
    · split at h
      · exact absurd h (by simp [Except.map])
      · simp only [if_pos rfl, Except.map] at h
        injection h with h
        subst h
        simp [AppCtx.write_requirements]

/-! ### C7 -/

/-- C7: the requirement table header is claimed to name the columns in
exactly the serialized field order of `Requirement` and to be the
header written at project initialization.  The header constant the code
writes at initialization (`REQUIREMENT_HEADER`) does NOT match the
serialized field order (it lacks `title` and `requirement_text`, has
`requirement` and an extra `status_justification`), while the csv
writer itself emits the field-name header — the code contradicts its
own codec.  The theorem records the mismatch and that initialization
writes the mismatched constant. -/
theorem requirement_header_mismatch :
    REQUIREMENT_HEADER ≠ String.intercalate "\t" requirementFieldNames ++ "\n"
    ∧ initRequirementContent = REQUIREMENT_HEADER
    ∧ encodeRequirementTable [] =
        String.intercalate "\t" requirementFieldNames ++ "\n" := by
  refine ⟨by decide, rfl, by decide⟩

/-! ### C8 -/

/-- C8: sanitizing an accepted staged requirement document is claimed
to rewrite the line breaks of each multi-line field in place.  Instead
the source stores the escaped `requirement_text` into `risks`:
evaluating the sanitizer at `c8doc` returns `requirement_text` still
holding its raw line break while `risks` has been overwritten with the
escaped text of the other field. -/
theorem requirement_sanitize_misassigns_risks :
    (RequirementEdit.sanitize c8doc).map
      (fun e => (e.requirement_text, e.risks)) = .ok ("a\nb", "a\\nb") := by
  decide

/-! ### C1 counterexample -/

/-- C1 (counterexample): after a successful insert the live table file
still holds the pre-mutation bytes, not the new table: the mutation is
written only to the `.new` sibling. -/
theorem live_table_stale_after_insert :
    (insert_component_draft ctx1 exDraftB "d1").map
      (fun c2 => decide (c2.fsComponentTbl = encodeComponentTable c2.components))
      = .ok false := by
  decide

/-! ### C2 counterexample -/

/-- C2 (counterexample): updating the sole (Deleted) component of
`ctxDel`, and likewise its sole (Deleted) requirement, succeeds and
transitions the status from Deleted back to Accepted — Deleted is not
terminal under `update_record` for either record kind. -/
theorem update_resurrects_deleted :
    (updateComponent ctxDel 0 exEditB).map
        (fun c2 => c2.components.map Component.status) = .ok [.Accepted]
    ∧ (updateRequirement ctxDel 3 exReqEdit1).map
        (fun c2 => c2.requirements.map Requirement.status) = .ok [.Accepted] := by
  constructor <;> decide

/-! ### C3 counterexample -/

/-- C3 (counterexample): inserting into the non-empty table of `ctx1`
succeeds, the appended record is the drafted `beta` record, but looking
up the id the insert assigned returns the pre-existing `alpha` record,
not the inserted one. -/
theorem insert_lookup_returns_preexisting :
    (insert_component_draft ctx1 exDraftB "d1").map
        (fun c2 => (c2.components.getLast?).map Component.name) = .ok (some "beta")
    ∧ (insert_component_draft ctx1 exDraftB "d1").map
        (fun c2 => (mut_record_by_id componentOps c2.components
          (maxRecId Component.id ctx1.components)).map Component.name)
        = .ok (some "alpha") := by
  constructor <;> decide

/-! ### C9 amended -/

/-- C9 (amended): staged-document parsing fails with a sanitize error
naming the offending field whenever any field contains a raw tab, or a
raw line break appears in the component name, the component EDIT
document's author, or a requirement document's author or title — but a
component DRAFT document's author field is checked only for tabs, so a
raw line break there is accepted (see the counterexample).  The error
conditions are stated in the order the source checks the fields.  A
sanitize failure propagates out of the insert/update operations as the
same error, i.e. the embedding returns `.error` on the Rust
early-return path, before any record is created or modified. -/
theorem staged_document_sanitize_rejections
    (cd : ComponentTomlDraft) (ce : ComponentEdit) (re : RequirementEdit)
    (ctxA ctxB ctxC ctxD : AppCtx) (idB idD cidC : Nat) (nowA nowC : String)
    (erA erB erC erD : StoreErr) :
    (contains_any ['\n', '\r', '\t'] cd.name = true →
      sanitize_component_draft cd = .error (.sanitize .name))
    ∧ (contains_any ['\n', '\r', '\t'] cd.name = false →
        containsTab cd.description = true →
        sanitize_component_draft cd = .error (.sanitize .description))
    ∧ (contains_any ['\n', '\r', '\t'] cd.name = false →
        containsTab cd.description = false → containsTab cd.author = true →
        sanitize_component_draft cd = .error (.sanitize .author))
    ∧ (contains_any ['\n', '\r', '\t'] ce.name = true →
        sanitize_component_edit ce = .error (.sanitize .name))
    ∧ (contains_any ['\n', '\r', '\t'] ce.name = false →
        containsTab ce.description = true →
        sanitize_component_edit ce = .error (.sanitize .description))
    ∧ (contains_any ['\n', '\r', '\t'] ce.name = false →
        containsTab ce.description = false →
        contains_any ['\n', '\r', '\t'] ce.author = true →
        sanitize_component_edit ce = .error (.sanitize .author))
    ∧ (containsTab re.risks = true →
        RequirementEdit.sanitize re = .error (.sanitize .risks))
    ∧ (containsTab re.risks = false → containsTab re.requirement_text = true →
        RequirementEdit.sanitize re = .error (.sanitize .requirementText))
    ∧ (containsTab re.risks = false → containsTab re.requirement_text = false →
        contains_any ['\n', '\t', '\r'] re.author = true →
        RequirementEdit.sanitize re = .error (.sanitize .author))
    ∧ (containsTab re.risks = false → containsTab re.requirement_text = false →
        contains_any ['\n', '\t', '\r'] re.author = false →
        contains_any ['\n', '\t', '\r'] re.title = true →
        RequirementEdit.sanitize re = .error (.sanitize .title))
    ∧ (sanitize_component_draft cd = .error erA →
        insert_component_draft ctxA cd nowA = .error erA)
    ∧ (sanitize_component_edit ce = .error erB →
        updateComponent ctxB idB ce = .error erB)
    ∧ ((ctxC.components.filter (fun c => decide (c.status = .Accepted))).isEmpty
          = false →
        RequirementEdit.sanitize re = .error erC →
        insert_requirement_draft ctxC cidC re nowC = .error erC)
    ∧ (RequirementEdit.sanitize re = .error erD →
        updateRequirement ctxD idD re = .error erD) := by
  refine ⟨fun hA => ?_, fun hA hB => ?_, fun hA hB hC => ?_,
    fun hA => ?_, fun hA hB => ?_, fun hA hB hC => ?_,
    fun hA => ?_, fun hA hB => ?_, fun hA hB hC => ?_, fun hA hB hC hD => ?_,
    fun hA => ?_, fun hA => ?_, fun hA hB => ?_, fun hA => ?_⟩
  · simp [sanitize_component_draft, hA]
  · simp [sanitize_component_draft, hA, hB]
  · simp [sanitize_component_draft, hA, hB, hC]
  · simp [sanitize_component_edit, hA]
  · simp [sanitize_component_edit, hA, hB]
  · simp [sanitize_component_edit, hA, hB, hC]
  · simp [RequirementEdit.sanitize, hA]
  · simp [RequirementEdit.sanitize, hA, hB]
  · simp [RequirementEdit.sanitize, hA, hB, hC]
  · simp [RequirementEdit.sanitize, hA, hB, hC, hD]
  · simp [insert_component_draft, hA]
  · simp [updateComponent, updateRecord, componentOps, hA, Except.map]
  · simp [insert_requirement_draft, hA, hB]
  · simp [updateRequirement, updateRecord, requirementOps, hA, Except.map]


/-- C9 witness: each rejection at a concrete offending document, and
the four propagation facts at concrete contexts. -/
theorem staged_document_sanitize_rejections_witness :
    sanitize_component_draft cdTabName = .error (.sanitize .name)
    ∧ sanitize_component_draft cdTabDesc = .error (.sanitize .description)
    ∧ sanitize_component_draft cdTabAuth = .error (.sanitize .author)
    ∧ sanitize_component_edit ceNlName = .error (.sanitize .name)
    ∧ sanitize_component_edit ceTabDesc = .error (.sanitize .description)
    ∧ sanitize_component_edit ceNlAuth = .error (.sanitize .author)
    ∧ RequirementEdit.sanitize reTabRisks = .error (.sanitize .risks)
    ∧ RequirementEdit.sanitize reTabText = .error (.sanitize .requirementText)
    ∧ RequirementEdit.sanitize reNlAuth = .error (.sanitize .author)
    ∧ RequirementEdit.sanitize reNlTitle = .error (.sanitize .title)
    ∧ insert_component_draft emptyCtx cdTabName "d1" = .error (.sanitize .name)
    ∧ updateComponent ctx1 0 ceNlName = .error (.sanitize .name)
    ∧ insert_requirement_draft ctx1 0 reTabRisks "d1" = .error (.sanitize .risks)
    ∧ updateRequirement ctx1 3 reTabRisks = .error (.sanitize .risks) :=
  ⟨(staged_document_sanitize_rejections cdTabName ceNlName reTabRisks
      emptyCtx ctx1 ctx1 ctx1 0 3 0 "d1" "d1"
      (.sanitize .name) (.sanitize .name) (.sanitize .risks) (.sanitize .risks)).1
      (by decide),
   (staged_document_sanitize_rejections cdTabDesc ceNlName reTabRisks
      emptyCtx ctx1 ctx1 ctx1 0 3 0 "d1" "d1"
      (.sanitize .name) (.sanitize .name) (.sanitize .risks) (.sanitize .risks)).2.1
      (by decide) (by decide),
   (staged_document_sanitize_rejections cdTabAuth ceNlName reTabRisks
      emptyCtx ctx1 ctx1 ctx1 0 3 0 "d1" "d1"
      (.sanitize .name) (.sanitize .name) (.sanitize .risks) (.sanitize .risks)).2.2.1
      (by decide) (by decide) (by decide),
   (staged_document_sanitize_rejections cdTabName ceNlName reTabRisks
      emptyCtx ctx1 ctx1 ctx1 0 3 0 "d1" "d1"
      (.sanitize .name) (.sanitize .name) (.sanitize .risks) (.sanitize .risks)).2.2.2.1
      (by decide),
   (staged_document_sanitize_rejections cdTabName ceTabDesc reTabRisks
      emptyCtx ctx1 ctx1 ctx1 0 3 0 "d1" "d1"
      (.sanitize .name) (.sanitize .name) (.sanitize .risks) (.sanitize .risks)).2.2.2.2.1
      (by decide) (by decide),
   (staged_document_sanitize_rejections cdTabName ceNlAuth reTabRisks
      emptyCtx ctx1 ctx1 ctx1 0 3 0 "d1" "d1"
      (.sanitize .name) (.sanitize .name) (.sanitize .risks) (.sanitize .risks)).2.2.2.2.2.1
      (by decide) (by decide) (by decide),
   (staged_document_sanitize_rejections cdTabName ceNlName reTabRisks
      emptyCtx ctx1 ctx1 ctx1 0 3 0 "d1" "d1"
      (.sanitize .name) (.sanitize .name) (.sanitize .risks) (.sanitize .risks)).2.2.2.2.2.2.1
      (by decide),
   (staged_document_sanitize_rejections cdTabName ceNlName reTabText
      emptyCtx ctx1 ctx1 ctx1 0 3 0 "d1" "d1"
      (.sanitize .name) (.sanitize .name) (.sanitize .risks) (.sanitize .risks)).2.2.2.2.2.2.2.1
      (by decide) (by decide),
   (staged_document_sanitize_rejections cdTabName ceNlName reNlAuth
      emptyCtx ctx1 ctx1 ctx1 0 3 0 "d1" "d1"
      (.sanitize .name) (.sanitize .name) (.sanitize .risks) (.sanitize .risks)).2.2.2.2.2.2.2.2.1
      (by decide) (by decide) (by decide),
   (staged_document_sanitize_rejections cdTabName ceNlName reNlTitle
      emptyCtx ctx1 ctx1 ctx1 0 3 0 "d1" "d1"
      (.sanitize .name) (.sanitize .name) (.sanitize .risks) (.sanitize .risks)).2.2.2.2.2.2.2.2.2.1
      (by decide) (by decide) (by decide) (by decide),
   (staged_document_sanitize_rejections cdTabName ceNlName reTabRisks
      emptyCtx ctx1 ctx1 ctx1 0 3 0 "d1" "d1"
      (.sanitize .name) (.sanitize .name) (.sanitize .risks) (.sanitize .risks)).2.2.2.2.2.2.2.2.2.2.1
      (by decide),
   (staged_document_sanitize_rejections cdTabName ceNlName reTabRisks
      emptyCtx ctx1 ctx1 ctx1 0 3 0 "d1" "d1"
      (.sanitize .name) (.sanitize .name) (.sanitize .risks) (.sanitize .risks)).2.2.2.2.2.2.2.2.2.2.2.1
      (by decide),
   (staged_document_sanitize_rejections cdTabName ceNlName reTabRisks
      emptyCtx ctx1 ctx1 ctx1 0 3 0 "d1" "d1"
      (.sanitize .name) (.sanitize .name) (.sanitize .risks) (.sanitize .risks)).2.2.2.2.2.2.2.2.2.2.2.2.1
      (by decide) (by decide),
   (staged_document_sanitize_rejections cdTabName ceNlName reTabRisks
      emptyCtx ctx1 ctx1 ctx1 0 3 0 "d1" "d1"
      (.sanitize .name) (.sanitize .name) (.sanitize .risks) (.sanitize .risks)).2.2.2.2.2.2.2.2.2.2.2.2.2
      (by decide)⟩

/-! ### C9 counterexample -/

/-- C9 (counterexample): a component draft whose single-line `author`
field contains a raw line break is accepted by
`sanitize_component_draft` (the draft sanitizer checks `author` only
for tabs), contradicting the claim that any raw line break in a
single-line field fails with a Sanitize error. -/
theorem component_draft_author_newline_accepted :
    (sanitize_component_draft
      { name := "n", description := "d", author := "x\ny" }).map
      (fun d => d.author) = .ok "x\ny" := by
  decide

/-! ### C6 -/

/-- C6: the atomic replacement for target `T` proceeds in order —
exclusive-create of `T.new` (failing with no effect when `T.new`
already exists), full write of the new bytes, rename `T` to `T.old`
(aborting with `T` untouched and a complete `T.new` present on
failure), rename `T.new` to `T`, delete `T.old` — and after successful
completion `T` holds exactly the new table with no `.old`/`.new`
siblings left. -/
theorem atomic_file_update_spec (fs : FsState) (content : String) (f : AtomicFail) :
    (fs.tNew.isSome = true → atomic_file_update f content fs = (some .createNew, fs))
    ∧ (fs.tNew = none → f.createFail = false → f.writeFail = false →
        f.rename1Fail = true →
        atomic_file_update f content fs =
          (some .renameCurToOld, { fs with tNew := some content }))
    ∧ (fs.tNew = none → fs.tCur.isSome = true → f.createFail = false →
        f.writeFail = false → f.rename1Fail = false → f.rename2Fail = false →
        f.removeFail = false →
        atomic_file_update f content fs =
          (none, { tCur := some content, tNew := none, tOld := none })) := by
  refine ⟨fun h1 => ?_, fun h1 h2 h3 h4 => ?_, fun h1 h2 h3 h4 h5 h6 h7 => ?_⟩
  · simp [atomic_file_update, h1]
  · simp [atomic_file_update, h1, h2, h3, h4]
  · rcases fs with ⟨tc, tn, tOldv⟩
    cases tc with
    | none => simp at h2
    | some v => simp [atomic_file_update, h1, h3, h4, h5, h6, h7] at *; simp [h1]

/-- C6 witness: the three scenarios at concrete file systems — a stale
`T.new` blocks the create with no effect; an injected failure of the
first rename leaves `T` holding the old bytes next to a complete
`T.new`; a failure-free run leaves exactly the new bytes at `T`. -/
theorem atomic_file_update_spec_witness :
    atomic_file_update
        { createFail := false, writeFail := false, writeLeft := "",
          rename1Fail := false, rename2Fail := false, removeFail := false }
        "newtbl" { tCur := some "oldtbl", tNew := some "stale", tOld := none }
      = (some .createNew, { tCur := some "oldtbl", tNew := some "stale", tOld := none })
    ∧ atomic_file_update
        { createFail := false, writeFail := false, writeLeft := "",
          rename1Fail := true, rename2Fail := false, removeFail := false }
        "newtbl" { tCur := some "oldtbl", tNew := none, tOld := none }
      = (some .renameCurToOld, { tCur := some "oldtbl", tNew := some "newtbl", tOld := none })
    ∧ atomic_file_update
        { createFail := false, writeFail := false, writeLeft := "",
          rename1Fail := false, rename2Fail := false, removeFail := false }
        "newtbl" { tCur := some "oldtbl", tNew := none, tOld := none }
      = (none, { tCur := some "newtbl", tNew := none, tOld := none }) :=
  ⟨(atomic_file_update_spec
      { tCur := some "oldtbl", tNew := some "stale", tOld := none } "newtbl"
      { createFail := false, writeFail := false, writeLeft := "",
        rename1Fail := false, rename2Fail := false, removeFail := false }).1 rfl,
   (atomic_file_update_spec
      { tCur := some "oldtbl", tNew := none, tOld := none } "newtbl"
      { createFail := false, writeFail := false, writeLeft := "",
        rename1Fail := true, rename2Fail := false, removeFail := false }).2.1
      rfl rfl rfl rfl,
   (atomic_file_update_spec
      { tCur := some "oldtbl", tNew := none, tOld := none } "newtbl"
      { createFail := false, writeFail := false, writeLeft := "",
        rename1Fail := false, rename2Fail := false, removeFail := false }).2.2
      rfl rfl rfl rfl rfl rfl rfl⟩

/-! ### C10 amended -/

/-- C10 (amended): when the index fast path misses (no element at
position `id`) a successful lookup returns a record whose own id equals
the requested id; the fast path itself returns the element at position
`id`, whose own id may differ from the requested one. -/
theorem lookup_fast_path_positional {R E : Type} (ops : RecordOps R E)
    (rs : List R) (id : Nat) (r : R) :
    (id < rs.length → mut_record_by_id ops rs id = rs[id]?)
    ∧ (rs[id]? = none → mut_record_by_id ops rs id = some r → ops.getId r = id) := by
  constructor
  · intro h
    cases hg : rs[id]? with
    | none =>
      have := List.getElem?_eq_none_iff.mp hg
      omega
    | some r' => simp [mut_record_by_id, hg]
  · intro h hm
    rw [mut_record_by_id] at hm
    simp only [h] at hm
    have hp := List.find?_some hm
    simpa using hp

/-- C10 witness: the fast path at position 1 of a two-record table
returns the positional element, and a fallback lookup of id 5 in a
one-record table returns the record whose id is 5. -/
theorem lookup_fast_path_positional_witness :
    mut_record_by_id componentOps [exComp0, compId5] 1 = [exComp0, compId5][1]?
    ∧ componentOps.getId compId5 = 5 :=
  ⟨(lookup_fast_path_positional componentOps [exComp0, compId5] 1 compId5).1
      (by decide),
   (lookup_fast_path_positional componentOps [compId5] 5 compId5).2
      (by decide) (by decide)⟩

/-! ### C4 -/

/-- C4: for both record kinds, the id a successful insert assigns to
the appended record equals the maximum id already present in the table
(`0` for an empty table) — not one past it — so for a non-empty table
the assigned id equals the id of an existing record. -/
theorem insert_assigns_max_existing_id
    (cA cD ctx2 ctxR2 : AppCtx) (d : ComponentTomlDraft) (e : RequirementEdit)
    (cid : Nat) (now now2 : String)
    (h1 : insert_component_draft cA d now = .ok ctx2)
    (h2 : insert_requirement_draft cD cid e now2 = .ok ctxR2) :
    (ctx2.components.getLast?).map Component.id
        = some (maxRecId Component.id cA.components)
    ∧ (cA.components = [] ∨
        maxRecId Component.id cA.components ∈ cA.components.map Component.id)
    ∧ (ctxR2.requirements.getLast?).map Requirement.id
        = some (maxRecId Requirement.id cD.requirements)
    ∧ (cD.requirements = [] ∨
        maxRecId Requirement.id cD.requirements ∈ cD.requirements.map Requirement.id) := by
  refine ⟨?_, maxRecId_mem _ _, ?_, maxRecId_mem _ _⟩
  · unfold insert_component_draft at h1
    split at h1
    · exact absurd h1 (by simp)
    · split at h1
      · exact absurd h1 (by simp)
      · injection h1 with h1
        subst h1
        simp [AppCtx.write_components, List.getLast?_concat]
  · unfold insert_requirement_draft at h2
    split at h2
    · exact absurd h2 (by simp)
    · split at h2
      · exact absurd h2 (by simp)
      · split at h2
        · exact absurd h2 (by simp)
        · injection h2 with h2
          subst h2
          simp [AppCtx.write_requirements, List.getLast?_concat]


/-- C4 witness: concrete inserts into the one-component,
one-requirement context `ctx1`; the appended ids are the existing
maxima (0 and 3), both already taken. -/
theorem insert_assigns_max_existing_id_witness :
    (wInsC.components.getLast?).map Component.id
        = some (maxRecId Component.id ctx1.components)
    ∧ (ctx1.components = [] ∨
        maxRecId Component.id ctx1.components ∈ ctx1.components.map Component.id)
    ∧ (wInsR.requirements.getLast?).map Requirement.id
        = some (maxRecId Requirement.id ctx1.requirements)
    ∧ (ctx1.requirements = [] ∨
        maxRecId Requirement.id ctx1.requirements ∈ ctx1.requirements.map Requirement.id) :=
  insert_assigns_max_existing_id ctx1 ctx1 wInsC wInsR exDraftB exReqEdit1
    0 "d1" "d1" rfl rfl

/-! ### C5 -/

/-- C5: inserting a draft whose identity field (component: name;
requirement: title or requirement text) matches an existing record of
the same kind — whatever that record's status, Deleted included — fails
with a conflict error citing the first matching record's id.  The
embedding yields an `.error`, which corresponds to the Rust early
return taken before the table is touched, so the table keeps its length
and content. -/
theorem insert_identity_conflict_rejected
    (ctx ctxR : AppCtx) (d d' : ComponentTomlDraft) (e e' : RequirementEdit)
    (c0 : Component) (r0 : Requirement) (cid : Nat) (now now2 : String)
    (hs : sanitize_component_draft d = .ok d')
    (hf : ctx.components.find? (fun c => decide (c.name = d'.name)) = some c0)
    (hne : (ctxR.components.filter (fun c => decide (c.status = .Accepted))).isEmpty
        = false)
    (hs2 : RequirementEdit.sanitize e = .ok e')
    (hf2 : ctxR.requirements.find? (fun c =>
        decide (c.requirement_text = e'.requirement_text)
        || decide (c.title = e'.title)) = some r0) :
    insert_component_draft ctx d now = .error (.conflict c0.id)
    ∧ insert_requirement_draft ctxR cid e now2 = .error (.conflict r0.id) := by
  constructor
  · simp [insert_component_draft, hs, hf]
  · simp [insert_requirement_draft, hne, hs2, req_conflict_findSome, hf2]


/-- C5 witness: both inserts into `ctxC5` are rejected with the
deleted conflicting records' ids (4 and 9). -/
theorem insert_identity_conflict_rejected_witness :
    insert_component_draft ctxC5 draftG "d1" = .error (.conflict compDelG.id)
    ∧ insert_requirement_draft ctxC5 0 reqEditT9 "d1" = .error (.conflict reqDel9.id) :=
  insert_identity_conflict_rejected ctxC5 ctxC5 draftG draftG reqEditT9 reqEditT9
    compDelG reqDel9 0 "d1" "d1" (by decide) (by decide) (by decide) (by decide)
    (by decide)

/-! ### C1 amended -/



/-- C1 (amended): every successful table-mutating operation (insert,update, confirmed delete; either record kind) synchronously writes the
full encoded new table — via create-or-truncate, write, flush, sync —
to the sibling `.new` path and sets the table's updated flag, while the
live table file keeps its pre-mutation bytes; the live file is replaced
only by the shutdown rename sequence in `main`. -/
theorem mutations_write_new_sibling_only
    (cA cB cC cD cE cF ctxA ctxB ctxC ctxD ctxE ctxF : AppCtx)
    (dA : ComponentTomlDraft) (eB : ComponentEdit) (idB idC idE idF cidD : Nat)
    (eD eE : RequirementEdit) (nowA nowD : String)
    (h1 : insert_component_draft cA dA nowA = .ok ctxA)
    (h2 : updateComponent cB idB eB = .ok ctxB)
    (h3 : deleteComponent cC idC true = .ok ctxC)
    (h4 : insert_requirement_draft cD cidD eD nowD = .ok ctxD)
    (h5 : updateRequirement cE idE eE = .ok ctxE)
    (h6 : deleteRequirement cF idF true = .ok ctxF) :
    (ctxA.fsComponentNew = some (encodeComponentTable ctxA.components)
      ∧ ctxA.updatedComponent = true ∧ ctxA.fsComponentTbl = cA.fsComponentTbl)
    ∧ (ctxB.fsComponentNew = some (encodeComponentTable ctxB.components)
      ∧ ctxB.updatedComponent = true ∧ ctxB.fsComponentTbl = cB.fsComponentTbl)
    ∧ (ctxC.fsComponentNew = some (encodeComponentTable ctxC.components)
      ∧ ctxC.updatedComponent = true ∧ ctxC.fsComponentTbl = cC.fsComponentTbl)
    ∧ (ctxD.fsRequirementNew = some (encodeRequirementTable ctxD.requirements)
      ∧ ctxD.updatedRequirement = true ∧ ctxD.fsRequirementTbl = cD.fsRequirementTbl)
    ∧ (ctxE.fsRequirementNew = some (encodeRequirementTable ctxE.requirements)
      ∧ ctxE.updatedRequirement = true ∧ ctxE.fsRequirementTbl = cE.fsRequirementTbl)
    ∧ (ctxF.fsRequirementNew = some (encodeRequirementTable ctxF.requirements)
      ∧ ctxF.updatedRequirement = true ∧ ctxF.fsRequirementTbl = cF.fsRequirementTbl) :=
  ⟨insert_component_persists cA ctxA dA nowA h1,
   update_component_persists cB ctxB idB eB h2,
   delete_component_persists cC ctxC idC h3,
   insert_requirement_persists cD ctxD cidD eD nowD h4,
   update_requirement_persists cE ctxE idE eE h5,
   delete_requirement_persists cF ctxF idF h6⟩


/-- C1 witness: all six mutating operations run successfully on `ctx1`
and each leaves the encoded new table in the `.new` slot, the updated
flag set, and the live table bytes unchanged. -/
theorem mutations_write_new_sibling_only_witness :
    (wInsC.fsComponentNew = some (encodeComponentTable wInsC.components)
      ∧ wInsC.updatedComponent = true ∧ wInsC.fsComponentTbl = ctx1.fsComponentTbl)
    ∧ (wUpdC.fsComponentNew = some (encodeComponentTable wUpdC.components)
      ∧ wUpdC.updatedComponent = true ∧ wUpdC.fsComponentTbl = ctx1.fsComponentTbl)
    ∧ (wDelC.fsComponentNew = some (encodeComponentTable wDelC.components)
      ∧ wDelC.updatedComponent = true ∧ wDelC.fsComponentTbl = ctx1.fsComponentTbl)
    ∧ (wInsR.fsRequirementNew = some (encodeRequirementTable wInsR.requirements)
      ∧ wInsR.updatedRequirement = true ∧ wInsR.fsRequirementTbl = ctx1.fsRequirementTbl)
    ∧ (wUpdR.fsRequirementNew = some (encodeRequirementTable wUpdR.requirements)
      ∧ wUpdR.updatedRequirement = true ∧ wUpdR.fsRequirementTbl = ctx1.fsRequirementTbl)
    ∧ (wDelR.fsRequirementNew = some (encodeRequirementTable wDelR.requirements)
      ∧ wDelR.updatedRequirement = true ∧ wDelR.fsRequirementTbl = ctx1.fsRequirementTbl) :=
  mutations_write_new_sibling_only ctx1 ctx1 ctx1 ctx1 ctx1 ctx1
    wInsC wUpdC wDelC wInsR wUpdR wDelR exDraftB exEditB 0 0 3 3 0
    exReqEdit1 exReqEdit1 "d1" "d1" rfl rfl rfl rfl rfl rfl

/-! ### C3 amended -/

/-- C3 (amended): whenever the id the insert will assign (the maximum
existing id; 0 for an empty table) equals the starting table's length —
in particular for every empty starting table — a successful insert
followed by lookup of the id the insert returned yields a record equal
to the inserted one with status Accepted, for both record kinds.  (When
the assigned id differs from the appended position the lookup can
instead return a pre-existing record — the counterexample exhibits a
one-record table with id 0 where it does.) -/
theorem insert_lookup_roundtrip_max_eq_length
    (ctx ctx2 ctxR ctxR2 : AppCtx) (d d' : ComponentTomlDraft)
    (e e' : RequirementEdit) (cid : Nat) (now now2 : String)
    (hs : sanitize_component_draft d = .ok d')
    (hlen : maxRecId Component.id ctx.components = ctx.components.length)
    (h4 : insert_component_draft ctx d now = .ok ctx2)
    (hs2 : RequirementEdit.sanitize e = .ok e')
    (hlenR : maxRecId Requirement.id ctxR.requirements = ctxR.requirements.length)
    (h4r : insert_requirement_draft ctxR cid e now2 = .ok ctxR2) :
    mut_record_by_id componentOps ctx2.components
        (maxRecId Component.id ctx.components)
      = some
        { id := maxRecId Component.id ctx.components,
          name := String.mk (replaceL ['\n'] ['\\', 'n'] d'.name.data),
          description := d'.description, creation_date := now,
          status := .Accepted, author := d'.author }
    ∧ mut_record_by_id requirementOps ctxR2.requirements
        (maxRecId Requirement.id ctxR.requirements)
      = some
        { id := maxRecId Requirement.id ctxR.requirements,
          component_id := cid, title := e'.title,
          functional := e'.functional, creation_date := now2,
          requirement_text := e'.requirement_text, version := 0,
          author := e'.author, priority := e'.priority,
          status := .Accepted, risks := e'.risks } := by
  constructor
  · unfold insert_component_draft at h4
    split at h4
    next => exact absurd h4 (by simp)
    next d'' heq1 =>
      have h5 : (Except.ok d' : Except StoreErr ComponentTomlDraft) = Except.ok d'' :=
        hs.symm.trans (show sanitize_component_draft d = Except.ok d'' from heq1)
      injection h5 with h5
      subst h5
      split at h4
      next => exact absurd h4 (by simp)
      next =>
        injection h4 with h4
        subst h4
        simp [AppCtx.write_components, mut_record_by_id, hlen,
          List.getElem?_concat_length]
  · unfold insert_requirement_draft at h4r
    split at h4r
    next => exact absurd h4r (by simp)
    next =>
      split at h4r
      next => exact absurd h4r (by simp)
      next e2'' heq1 =>
        have h5 : (Except.ok e' : Except StoreErr RequirementEdit) = Except.ok e2'' :=
          hs2.symm.trans (show RequirementEdit.sanitize e = Except.ok e2'' from heq1)
        injection h5 with h5
        subst h5
        split at h4r
        next => exact absurd h4r (by simp)
        next =>
          injection h4r with h4r
          subst h4r
          simp [AppCtx.write_requirements, mut_record_by_id, hlenR,
            List.getElem?_concat_length]

/-- C3 witness: inserting into `ctxLen1`, whose tables each hold one
record with id 1 (so the assigned id 1 equals the table length), and
looking id 1 up yields exactly the inserted records, status Accepted;
the same application covers the empty-table case since `maxRecId` of an
empty table is 0, its length. -/
theorem insert_lookup_roundtrip_max_eq_length_witness :
    mut_record_by_id componentOps wInsC3.components
        (maxRecId Component.id ctxLen1.components)
      = some
        { id := maxRecId Component.id ctxLen1.components,
          name := String.mk (replaceL ['\n'] ['\\', 'n'] exDraftB.name.data),
          description := exDraftB.description, creation_date := "d1",
          status := .Accepted, author := exDraftB.author }
    ∧ mut_record_by_id requirementOps wInsR3.requirements
        (maxRecId Requirement.id ctxLen1.requirements)
      = some
        { id := maxRecId Requirement.id ctxLen1.requirements,
          component_id := 0, title := exReqEdit1.title,
          functional := exReqEdit1.functional, creation_date := "d2",
          requirement_text := exReqEdit1.requirement_text, version := 0,
          author := exReqEdit1.author, priority := exReqEdit1.priority,
          status := .Accepted, risks := exReqEdit1.risks } :=
  insert_lookup_roundtrip_max_eq_length ctxLen1 wInsC3 ctxLen1 wInsR3
    exDraftB exDraftB exReqEdit1 exReqEdit1 0 "d1" "d2"
    (by decide) (by decide) rfl (by decide) (by decide) rfl

/-! ### C2 amended -/

/-- C2 (amended): for either record kind, when the id resolves to a
record whose status is Deleted, delete fails with the already-deleted
error (the embedding's `.error` is the Rust early return taken before
any mutation, so the record is unchanged); update, however, does NOT
treat Deleted as terminal: whenever it succeeds it replaces the
resolved record with the sanitized edit applied — all editable fields
taken from the edit document, `version` incremented for requirements —
and status forced to Accepted, Deleted records included. -/
theorem deleted_blocks_delete_not_update
    (ctx ctx2 ctxR ctxR2 : AppCtx) (id i idR iR : Nat) (r : Component)
    (rr : Requirement) (confirm confirmR : Bool)
    (e e' : ComponentEdit) (e2 e2' : RequirementEdit)
    (h1 : lookupIdx componentOps ctx.components id = some i)
    (h2 : ctx.components[i]? = some r)
    (h3 : r.status = .Deleted)
    (hs : sanitize_component_edit e = .ok e')
    (h4 : updateComponent ctx id e = .ok ctx2)
    (h1r : lookupIdx requirementOps ctxR.requirements idR = some iR)
    (h2r : ctxR.requirements[iR]? = some rr)
    (h3r : rr.status = .Deleted)
    (hsr : RequirementEdit.sanitize e2 = .ok e2')
    (h4r : updateRequirement ctxR idR e2 = .ok ctxR2) :
    deleteComponent ctx id confirm = .error .alreadyDeleted
    ∧ deleteRequirement ctxR idR confirmR = .error .alreadyDeleted
    ∧ ctx2.components[i]? = some
        { id := r.id, name := e'.name, description := e'.description,
          creation_date := r.creation_date, status := .Accepted,
          author := e'.author }
    ∧ ctxR2.requirements[iR]? = some
        { id := rr.id, component_id := rr.component_id, title := e2'.title,
          functional := e2'.functional, creation_date := rr.creation_date,
          requirement_text := e2'.requirement_text, version := rr.version + 1,
          author := e2'.author, priority := e2'.priority,
          status := .Accepted, risks := e2'.risks } := by
  refine ⟨?_, ?_, ?_, ?_⟩
  · simp only [deleteComponent, deleteRecord, h1, h2]
    simp [componentOps, h3, Except.map]
  · simp only [deleteRequirement, deleteRecord, h1r, h2r]
    simp [requirementOps, h3r, Except.map]
  · unfold updateComponent updateRecord at h4
    split at h4
    next => exact absurd h4 (by simp [Except.map])
    next e'' heq1 =>
      have h5 : (Except.ok e' : Except StoreErr ComponentEdit) = Except.ok e'' :=
        hs.symm.trans (show sanitize_component_edit e = Except.ok e'' from heq1)
      injection h5 with h5
      subst h5
      split at h4
      · exact absurd h4 (by simp [Except.map])
      · split at h4
        next => exact absurd h4 (by simp [Except.map])
        next i'' heq3 =>
          rw [h1] at heq3
          injection heq3 with heq3
          subst heq3
          simp only [Except.map] at h4
          injection h4 with h4
          subst h4
          simp [AppCtx.write_components, modifyAt_get?, h2, componentOps]
  · unfold updateRequirement updateRecord at h4r
    split at h4r
    next => exact absurd h4r (by simp [Except.map])
    next e2'' heq1 =>
      have h5 : (Except.ok e2' : Except StoreErr RequirementEdit) = Except.ok e2'' :=
        hsr.symm.trans (show RequirementEdit.sanitize e2 = Except.ok e2'' from heq1)
      injection h5 with h5
      subst h5
      split at h4r
      · exact absurd h4r (by simp [Except.map])
      · split at h4r
        next => exact absurd h4r (by simp [Except.map])
        next i'' heq3 =>
          rw [h1r] at heq3
          injection heq3 with heq3
          subst heq3
          simp only [Except.map] at h4r
          injection h4r with h4r
          subst h4r
          simp [AppCtx.write_requirements, modifyAt_get?, h2r, requirementOps]


/-- C2 witness: in `ctxDel` (sole component and sole requirement both
Deleted), the deletes of ids 0 and 3 fail with the already-deleted
error while the successful updates resurrect both records: all
editable fields come from the edit documents, the requirement version
is incremented, and both statuses end Accepted. -/
theorem deleted_blocks_delete_not_update_witness :
    deleteComponent ctxDel 0 true = .error .alreadyDeleted
    ∧ deleteRequirement ctxDel 3 true = .error .alreadyDeleted
    ∧ wUpdDel.components[0]? = some
        { id := exComp0Del.id, name := exEditB.name,
          description := exEditB.description,
          creation_date := exComp0Del.creation_date, status := .Accepted,
          author := exEditB.author }
    ∧ wUpdDelR.requirements[0]? = some
        { id := exReq0Del.id, component_id := exReq0Del.component_id,
          title := exReqEdit1.title, functional := exReqEdit1.functional,
          creation_date := exReq0Del.creation_date,
          requirement_text := exReqEdit1.requirement_text,
          version := exReq0Del.version + 1, author := exReqEdit1.author,
          priority := exReqEdit1.priority, status := .Accepted,
          risks := exReqEdit1.risks } :=
  deleted_blocks_delete_not_update ctxDel wUpdDel ctxDel wUpdDelR 0 0 3 0
    exComp0Del exReq0Del true true exEditB exEditB exReqEdit1 exReqEdit1
    (by decide) (by decide) (by decide) (by decide) rfl
    (by decide) (by decide) (by decide) (by decide) rfl

/-! ### C10 counterexample -/

/-- C10 (counterexample): looking up id 0 in a table whose only record
has id 5 takes the index fast path (position 0 exists) and returns the
id-5 record: the fast path can return a record whose id differs from
the requested one. -/
theorem lookup_fast_path_wrong_id :
    (mut_record_by_id componentOps [compId5] 0).map
      (fun r => decide (r.id = 0)) = some false := by
  decide

end Reqtsv
